import Mathlib

/-!
Shallow embedding of the LeadSync lead-lifecycle engine.

The repository contains two variants of the same application:
`src/index.tsx` (storage key `leadflow_leads_db`, backend object `MockBackend`,
plus the background-automation effect in `App`) and a second file
(storage key `leadflow_leads_v2`, backend object `API`).

Modelling conventions:
- instants (`new Date().toISOString()`) are modelled as `Nat` time-units,
  passed explicitly as a `now` argument at each call that reads the clock;
- the freshly generated tokens (`Math.random().toString(36).substr(2, 9)` for
  ids, `'user_' + Math.floor(Math.random() * 100)` for usernames) are passed
  explicitly as `genId` / `genUser` arguments;
- `Partial<Lead>` is a structure of `Option` fields, `none` meaning the
  property is absent from the object literal; the JavaScript spread
  `{ defaults…, ...lead }` therefore merges as `field := p.field.getD default`
  for every field of the interface (a present property always wins, even over
  the generated `id`/`timestamp`/`status` defaults written before the spread);
- `localStorage` contents are threaded as explicit `List Lead` values: each
  backend operation takes the stored collection and returns the saved one.
-/

inductive Platform where
  | Instagram
  | Facebook
deriving DecidableEq

inductive LeadStatus where
  | New
  | Contacted
  | Converted
  | Lost
  | Processing
deriving DecidableEq

namespace MockBackend

/-- The `Lead` interface of `src/index.tsx` (it has `profile_url`, no `notes`). -/
structure Lead where
  id : String
  username : String
  full_name : String
  profile_url : String
  email : String
  phone : String
  source_platform : Platform
  captured_from : String
  captured_content : String
  timestamp : Nat
  status : LeadStatus
  last_contacted : Option Nat
deriving DecidableEq

/-- The mutation `updateStatus` performs on the matched record
(src/index.tsx lines 88-91): assign the new status, and assign
`last_contacted := now` exactly when the new status is `Contacted`. -/
def applyStatus (now : Nat) (st : LeadStatus) (l : Lead) : Lead :=
  { l with
    status := st,
    last_contacted := if st = LeadStatus.Contacted then some now
                      else l.last_contacted }

/-- `MockBackend.updateStatus` (src/index.tsx lines 84-96): `findIndex` the first
lead with the given id, overwrite its `status`, additionally set
`last_contacted` to the current instant when the new status is `Contacted`,
save, and return the updated lead; when no lead matches, the store is left
unchanged and `null` is returned. The input list is the stored collection,
the output pair is (saved collection, returned lead-or-null). -/
def updateStatus (now : Nat) (i : String) (status : LeadStatus) :
    List Lead → List Lead × Option Lead
  | [] => ([], none)
  | l :: rest =>
    if l.id = i then
      (applyStatus now status l :: rest, some (applyStatus now status l))
    else
      let p := updateStatus now i status rest
      (l :: p.1, p.2)

end MockBackend

namespace Scheduler

/-- The in-place mutation performed by the automation tick on the in-memory
copy (src/index.tsx lines 176-181): `find` returns the first lead whose status
is `New` and that object's `status` field is assigned `Processing`. -/
def markFirstNewProcessing : List MockBackend.Lead → List MockBackend.Lead
  | [] => []
  | l :: rest =>
    if l.status = LeadStatus.New then
      { l with status := LeadStatus.Processing } :: rest
    else
      l :: markFirstNewProcessing rest

/-- State of the App automation (src/index.tsx lines 143-200): `mem` is the
React `leads` state, `store` is the `localStorage` collection, `pending` is
the set of scheduled `setTimeout` callbacks as (fire instant, lead id) pairs,
`automating` is the `isAutomating` flag. -/
structure SchedState where
  mem : List MockBackend.Lead
  store : List MockBackend.Lead
  pending : List (Nat × String)
  automating : Bool
deriving DecidableEq

/-- One interval tick (src/index.tsx lines 174-197) at instant `t`: find the
first in-memory lead with status `New`; if one exists, mark it `Processing`
in memory (no store write) and schedule a one-shot callback for that lead's
id 3 time-units later (`setTimeout(…, 3000)`); otherwise do nothing. -/
def tick (t : Nat) (s : SchedState) : SchedState :=
  match s.mem.find? (fun l => decide (l.status = LeadStatus.New)) with
  | some l =>
    { s with
      mem := markFirstNewProcessing s.mem,
      pending := s.pending ++ [(t + 3, l.id)] }
  | none => s

/-- The delayed callback body (src/index.tsx lines 185-191) firing at instant
`t` for lead id `i`: `MockBackend.updateStatus(i, 'Contacted')` against the
store; when it returns a lead, re-read the store into memory
(`setLeads(MockBackend.getLeads())`); when it returns `null`, nothing
further happens. -/
def fireTimeout (t : Nat) (i : String) (s : SchedState) : SchedState :=
  let p := MockBackend.updateStatus t i LeadStatus.Contacted s.store
  match p.2 with
  | some _ => { s with store := p.1, mem := p.1 }
  | none => s

/-- Events of the single-threaded timer queue. -/
inductive Event where
  | tick (t : Nat)
  | fire (t : Nat) (i : String)
  | toggle (b : Bool)

/-- Event semantics: the recurring interval exists only while `isAutomating`
is true (the effect's cleanup runs `clearInterval`), so a tick event is a
no-op when automation is off; a scheduled one-shot callback fires regardless
of the flag (`clearInterval` does not clear the `setTimeout`); toggling sets
the flag. -/
def stepEv (s : SchedState) : Event → SchedState
  | Event.tick t => if s.automating then tick t s else s
  | Event.fire t i =>
    if (t, i) ∈ s.pending then
      fireTimeout t i { s with pending := s.pending.erase (t, i) }
    else s
  | Event.toggle b => { s with automating := b }

end Scheduler

namespace API

/-- The `Lead` interface of the second application file (it has optional
`notes`, no `profile_url`). -/
structure Lead where
  id : String
  username : String
  full_name : String
  email : String
  phone : String
  source_platform : Platform
  captured_from : String
  captured_content : String
  timestamp : Nat
  status : LeadStatus
  last_contacted : Option Nat
  notes : Option String
deriving DecidableEq

/-- `Partial<Lead>`: every property optional, `none` = absent. -/
structure PartialLead where
  id : Option String := none
  username : Option String := none
  full_name : Option String := none
  email : Option String := none
  phone : Option String := none
  source_platform : Option Platform := none
  captured_from : Option String := none
  captured_content : Option String := none
  timestamp : Option Nat := none
  status : Option LeadStatus := none
  last_contacted : Option Nat := none
  notes : Option String := none
deriving DecidableEq

/-- The record built by `API.addLead` (second file, lines 62-75): an object
literal of defaults (`id` freshly generated, `timestamp` = now,
`status: 'New'`, `notes: ''`, the documented per-field fallbacks) followed by
the spread `...lead`, so any property present in the partial input wins. -/
def mkLead (now : Nat) (genId : String) (genUser : String) (p : PartialLead) : Lead :=
  { id := p.id.getD genId
    username := p.username.getD genUser
    full_name := p.full_name.getD "New Prospect"
    email := p.email.getD ""
    phone := p.phone.getD ""
    source_platform := p.source_platform.getD Platform.Instagram
    captured_from := p.captured_from.getD "Direct Message"
    captured_content := p.captured_content.getD "Interested in your product!"
    timestamp := p.timestamp.getD now
    status := p.status.getD LeadStatus.New
    last_contacted := p.last_contacted
    notes := some (p.notes.getD "") }

/-- `API.addLead`: build the new record, `unshift` it (prepend), save.
Returns the saved collection. -/
def addLead (now : Nat) (genId : String) (genUser : String) (p : PartialLead)
    (leads : List Lead) : List Lead :=
  mkLead now genId genUser p :: leads

/-- `API.updateLead` (second file, lines 54-58): map over the stored
collection, replacing every record whose id equals the supplied record's id
by the supplied record verbatim; save and return the result. -/
def updateLead (u : Lead) (leads : List Lead) : List Lead :=
  leads.map fun l => if l.id = u.id then u else l

/-- `API.deleteLead` (second file, lines 48-52): filter out every record with
the given id; save and return the result. -/
def deleteLead (i : String) (leads : List Lead) : List Lead :=
  leads.filter fun l => decide (l.id ≠ i)

/-- The persisted slot as seen by `API.getLeads`: `localStorage.getItem`
returns `null` (`absent`) or a string, and a string either parses under
`JSON.parse` to a lead collection (`wellFormed`) or makes `JSON.parse`
throw a `SyntaxError` (`malformed`). -/
inductive StoredValue where
  | absent
  | wellFormed (leads : List Lead)
  | malformed

/-- `API.getLeads` (second file, lines 42-45): `saved ? JSON.parse(saved) : []`.
There is no try/catch, so a parse failure propagates as a thrown exception,
modelled as `Except.error`; `MockBackend.getLeads` (src/index.tsx lines
54-57) is the identical expression over its own storage key. -/
def getLeads : StoredValue → Except String (List Lead)
  | StoredValue.absent => Except.ok []
  | StoredValue.wellFormed ls => Except.ok ls
  | StoredValue.malformed => Except.error "SyntaxError: JSON.parse rejects the stored text"

/-- One repository write operation, with the clock/random values the call
would read bundled in. -/
inductive RepoOp where
  | add (now : Nat) (genId : String) (genUser : String) (p : PartialLead)
  | update (u : Lead)
  | delete (i : String)

/-- Apply one repository operation to the stored collection. -/
def applyOp (leads : List Lead) : RepoOp → List Lead
  | RepoOp.add now genId genUser p => addLead now genId genUser p leads
  | RepoOp.update u => updateLead u leads
  | RepoOp.delete i => deleteLead i leads

/-- Run a sequence of repository operations starting from the empty store;
the result is what `API.getLeads` / `list()` then returns. -/
def runOps (ops : List RepoOp) : List Lead :=
  ops.foldl applyOp []

/-- Specification-side account of what one operation does to the record
tracked for id `x`, following the spec's words: a create whose resulting id
is `x` (re)writes the record, an update for `x` writes the supplied record
when `x` is currently present (updating an absent id is a no-op), a delete
of `x` removes it. -/
def stepSpec (x : String) (acc : Option Lead) : RepoOp → Option Lead
  | RepoOp.add now genId genUser p =>
    let nl := mkLead now genId genUser p
    if nl.id = x then some nl else acc
  | RepoOp.update u => if u.id = x ∧ acc.isSome then some u else acc
  | RepoOp.delete i => if i = x then none else acc

/-- Fold `stepSpec` over an operation sequence from a given starting record. -/
def lastWrittenFrom (x : String) : Option Lead → List RepoOp → Option Lead
  | acc, [] => acc
  | acc, op :: rest => lastWrittenFrom x (stepSpec x acc op) rest

/-- Specification definition ("the fields last written for its id"): the
record the spec expects `list()` to associate with id `x` after running
`ops` from the empty store — `none` exactly when `x` was never created or
was deleted after its last creation. -/
def lastWritten (ops : List RepoOp) (x : String) : Option Lead :=
  lastWrittenFrom x none ops

end API

/-- A successful `find?` splits the list at the first satisfying element. -/
theorem find?_split {α : Type} (p : α → Bool) :
    ∀ (l : List α) (a : α), l.find? p = some a →
      ∃ l1 l2, l = l1 ++ a :: l2 ∧ (∀ x ∈ l1, p x = false) ∧ p a = true := by
  intro l
  induction l with
  | nil => intro a h; simp [List.find?] at h
  | cons b t ih =>
    intro a h
    by_cases hb : p b = true
    · rw [List.find?_cons_of_pos t hb] at h
      obtain rfl : b = a := by injection h
      exact ⟨[], t, rfl, fun x hx => absurd hx (List.not_mem_nil x), hb⟩
    · rw [List.find?_cons_of_neg t hb] at h
      obtain ⟨l1, l2, hsplit, hall, ha⟩ := ih a h
      refine ⟨b :: l1, l2, by rw [hsplit]; rfl, ?_, ha⟩
      intro x hx
      rcases List.mem_cons.mp hx with rfl | hx
      · simpa using hb
      · exact hall x hx

/-- `find?` skips a prefix on which the predicate is everywhere false. -/
theorem find?_append_left {α : Type} (p : α → Bool) (l1 l2 : List α)
    (h : ∀ x ∈ l1, p x = false) : (l1 ++ l2).find? p = l2.find? p := by
  induction l1 with
  | nil => rfl
  | cons b t ih =>
    have hb : p b = false := h b (List.mem_cons_self b t)
    rw [List.cons_append, List.find?_cons_of_neg _ (by simp [hb])]
    exact ih fun x hx => h x (List.mem_cons_of_mem b hx)

/-- With pairwise-distinct keys, searching for a member's key finds exactly
that member. -/
theorem find?_mem_of_nodup_keys {α : Type} (f : α → String) :
    ∀ (l : List α) (a : α), (l.map f).Nodup → a ∈ l →
      l.find? (fun x => decide (f x = f a)) = some a := by
  intro l
  induction l with
  | nil => intro a _ h; cases h
  | cons b t ih =>
    intro a hnd hmem
    have hnd' : f b ∉ t.map f ∧ (t.map f).Nodup := by
      simpa [List.nodup_cons] using hnd
    rcases List.mem_cons.mp hmem with rfl | hmem
    · exact List.find?_cons_of_pos t (by simp)
    · have hb : f b ≠ f a := by
        intro hEq
        exact hnd'.1 (hEq ▸ List.mem_map_of_mem f hmem)
      rw [List.find?_cons_of_neg t (by simp [hb])]
      exact ih a hnd'.2 hmem

namespace MockBackend

/-- `updateStatus` on a collection split at the first record carrying the
target id: that record alone is rewritten (status, plus `last_contacted`
exactly when the new status is `Contacted`), everything else and the order
are untouched, and the rewritten record is returned. -/
theorem updateStatus_split (now : Nat) (i : String) (st : LeadStatus)
    (l1 l2 : List Lead) (l : Lead)
    (h1 : ∀ x ∈ l1, x.id ≠ i) (hl : l.id = i) :
    updateStatus now i st (l1 ++ l :: l2) =
      (l1 ++ applyStatus now st l :: l2, some (applyStatus now st l)) := by
  induction l1 with
  | nil => simp [updateStatus, hl]
  | cons b t ih =>
    have hb : ¬ b.id = i := h1 b (List.mem_cons_self b t)
    simp [updateStatus, hb, ih fun x hx => h1 x (List.mem_cons_of_mem b hx)]

/-- `updateStatus` with an id matching no record: store unchanged, `null`
returned. -/
theorem updateStatus_not_found (now : Nat) (i : String) (st : LeadStatus)
    (leads : List Lead) (h : ∀ x ∈ leads, x.id ≠ i) :
    updateStatus now i st leads = (leads, none) := by
  induction leads with
  | nil => rfl
  | cons b t ih =>
    have hb : ¬ b.id = i := h b (List.mem_cons_self b t)
    simp [updateStatus, hb, ih fun x hx => h x (List.mem_cons_of_mem b hx)]

/-- `updateStatus`, phrased through `find?`: when a record with the id is
present, the returned lead is the first such record rewritten, and searching
the saved collection for the id retrieves that rewritten record. -/
theorem updateStatus_found (now : Nat) (i : String) (st : LeadStatus)
    (leads : List Lead) (m : Lead)
    (h : leads.find? (fun x => decide (x.id = i)) = some m) :
    (updateStatus now i st leads).2 = some (applyStatus now st m) ∧
    (updateStatus now i st leads).1.find? (fun x => decide (x.id = i)) =
      some (applyStatus now st m) := by
  obtain ⟨l1, l2, hsplit, hall, hm⟩ := find?_split _ leads m h
  have hall' : ∀ x ∈ l1, x.id ≠ i := fun x hx => by simpa using hall x hx
  have hm' : m.id = i := by simpa using hm
  rw [hsplit, updateStatus_split now i st l1 l2 m hall' hm']
  refine ⟨rfl, ?_⟩
  rw [find?_append_left _ l1 _ (fun x hx => by simp [hall' x hx])]
  exact List.find?_cons_of_pos _ (by simp [applyStatus, hm'])

end MockBackend

namespace Scheduler

/-- Marking the first `New` lead rewrites exactly that record. -/
theorem markFirstNew_split (l1 l2 : List MockBackend.Lead) (l : MockBackend.Lead)
    (h1 : ∀ x ∈ l1, x.status ≠ LeadStatus.New) (hl : l.status = LeadStatus.New) :
    markFirstNewProcessing (l1 ++ l :: l2) =
      l1 ++ ({ l with status := LeadStatus.Processing } : MockBackend.Lead) :: l2 := by
  induction l1 with
  | nil => simp [markFirstNewProcessing, hl]
  | cons b t ih =>
    have hb : ¬ b.status = LeadStatus.New := h1 b (List.mem_cons_self b t)
    simp [markFirstNewProcessing, hb, ih fun x hx => h1 x (List.mem_cons_of_mem b hx)]

/-- `find?` for the `New` status locates the first `New` lead of a split. -/
theorem find?_new_split (l1 l2 : List MockBackend.Lead) (l : MockBackend.Lead)
    (h1 : ∀ x ∈ l1, x.status ≠ LeadStatus.New) (hl : l.status = LeadStatus.New) :
    (l1 ++ l :: l2).find? (fun x => decide (x.status = LeadStatus.New)) = some l := by
  rw [find?_append_left _ l1 _ (fun x hx => by simp [h1 x hx])]
  exact List.find?_cons_of_pos _ (by simp [hl])

/-- A tick with a `New` lead present: that lead (the first one) is marked
`Processing` in memory, one delayed callback for its id is scheduled 3
time-units later, and nothing else changes. -/
theorem tick_split (t : Nat) (s : SchedState)
    (l1 l2 : List MockBackend.Lead) (l : MockBackend.Lead)
    (hmem : s.mem = l1 ++ l :: l2)
    (h1 : ∀ x ∈ l1, x.status ≠ LeadStatus.New) (hl : l.status = LeadStatus.New) :
    tick t s =
      { s with
        mem := l1 ++ ({ l with status := LeadStatus.Processing } : MockBackend.Lead) :: l2,
        pending := s.pending ++ [(t + 3, l.id)] } := by
  unfold tick
  rw [hmem, find?_new_split l1 l2 l h1 hl, markFirstNew_split l1 l2 l h1 hl]

/-- A tick with no `New` lead is a complete no-op. -/
theorem tick_noop (t : Nat) (s : SchedState)
    (h : ∀ x ∈ s.mem, x.status ≠ LeadStatus.New) :
    tick t s = s := by
  unfold tick
  rw [List.find?_eq_none.mpr fun x hx => by simp [h x hx]]

end Scheduler

namespace MockBackend

/-- `updateStatus` never touches any record's `id` or `timestamp`. -/
theorem updateStatus_keys (now : Nat) (i : String) (st : LeadStatus) :
    ∀ leads : List Lead,
      (updateStatus now i st leads).1.map (fun l => (l.id, l.timestamp)) =
        leads.map fun l => (l.id, l.timestamp) := by
  intro leads
  induction leads with
  | nil => rfl
  | cons a t ih =>
    by_cases h : a.id = i
    · simp [updateStatus, h, applyStatus]
    · simp [updateStatus, h, ih]

end MockBackend

namespace API

/-- Searching an `updateLead` result for an id: the supplied record is found
exactly when it carries the searched id and some record with that id was
already present; otherwise the search is unaffected. -/
theorem updateLead_find? (u : Lead) (x : String) (leads : List Lead) :
    (updateLead u leads).find? (fun l => decide (l.id = x)) =
      if u.id = x ∧ (leads.find? (fun l => decide (l.id = x))).isSome then some u
      else leads.find? (fun l => decide (l.id = x)) := by
  induction leads with
  | nil => simp [updateLead]
  | cons a t ih =>
    simp only [updateLead, List.map_cons] at ih ⊢
    by_cases hax : a.id = x
    · by_cases hau : a.id = u.id
      · have hux : u.id = x := by rw [← hau, hax]
        rw [if_pos hau, List.find?_cons_of_pos _ (by simp [hux]),
          List.find?_cons_of_pos t (by simp [hax])]
        simp [hux]
      · have hux : ¬ u.id = x := fun h => hau (hax.trans h.symm)
        rw [if_neg hau, List.find?_cons_of_pos _ (by simp [hax]),
          List.find?_cons_of_pos t (by simp [hax])]
        simp [hux]
    · by_cases hau : a.id = u.id
      · have hux : ¬ u.id = x := fun h => hax (hau.trans h)
        rw [if_pos hau, List.find?_cons_of_neg _ (by simp [hux]),
          List.find?_cons_of_neg t (by simp [hax]), ih]
      · rw [if_neg hau, List.find?_cons_of_neg _ (by simp [hax]),
          List.find?_cons_of_neg t (by simp [hax]), ih]

/-- Searching a `deleteLead` result for an id: deleting the searched id
removes it entirely; deleting any other id leaves the search unaffected. -/
theorem deleteLead_find? (i x : String) (leads : List Lead) :
    (deleteLead i leads).find? (fun l => decide (l.id = x)) =
      if i = x then none else leads.find? (fun l => decide (l.id = x)) := by
  induction leads with
  | nil => simp [deleteLead]
  | cons a t ih =>
    simp only [deleteLead] at ih ⊢
    rw [List.filter_cons]
    by_cases hai : a.id = i
    · rw [if_neg (by simp [hai]), ih]
      by_cases hix : i = x
      · simp [hix]
      · rw [if_neg hix, if_neg hix, List.find?_cons_of_neg t (by simp [hai, hix])]
    · rw [if_pos (by simp [hai])]
      by_cases hax : a.id = x
      · have hix : ¬ i = x := fun h => hai (by rw [hax, h])
        rw [List.find?_cons_of_pos _ (by simp [hax]), if_neg hix,
          List.find?_cons_of_pos t (by simp [hax])]
      · rw [List.find?_cons_of_neg _ (by simp [hax]), ih]
        by_cases hix : i = x
        · simp [hix]
        · rw [if_neg hix, if_neg hix, List.find?_cons_of_neg t (by simp [hax])]

/-- Searching an `addLead` result for an id: the new record is found when it
carries the searched id (it is prepended), otherwise the search is
unaffected. -/
theorem addLead_find? (now : Nat) (genId genUser : String) (p : PartialLead)
    (x : String) (leads : List Lead) :
    (addLead now genId genUser p leads).find? (fun l => decide (l.id = x)) =
      if (mkLead now genId genUser p).id = x then some (mkLead now genId genUser p)
      else leads.find? (fun l => decide (l.id = x)) := by
  by_cases h : (mkLead now genId genUser p).id = x
  · rw [addLead, List.find?_cons_of_pos _ (by simp [h]), if_pos h]
  · rw [addLead, List.find?_cons_of_neg _ (by simp [h]), if_neg h]

/-- One repository operation transforms the record found for any id exactly
as the specification-side `stepSpec` prescribes. -/
theorem applyOp_find? (x : String) (s : List Lead) (op : RepoOp) :
    (applyOp s op).find? (fun l => decide (l.id = x)) =
      stepSpec x (s.find? (fun l => decide (l.id = x))) op := by
  cases op with
  | add now genId genUser p => simp [applyOp, stepSpec, addLead_find?]
  | update u => simp [applyOp, stepSpec, updateLead_find?]
  | delete i => simp [applyOp, stepSpec, deleteLead_find?]

/-- Folding repository operations from any starting collection tracks the
specification fold record-for-record. -/
theorem runOps_find_aux (x : String) :
    ∀ (ops : List RepoOp) (s : List Lead),
      (ops.foldl applyOp s).find? (fun l => decide (l.id = x)) =
        lastWrittenFrom x (s.find? (fun l => decide (l.id = x))) ops := by
  intro ops
  induction ops with
  | nil => intro s; rfl
  | cons op rest ih =>
    intro s
    simp only [List.foldl_cons, lastWrittenFrom]
    rw [ih (applyOp s op), applyOp_find?]

/-- `updateLead` with an id matching no record rebuilds the collection
unchanged. -/
theorem updateLead_not_present (u : Lead) (leads : List Lead)
    (h : ∀ l ∈ leads, l.id ≠ u.id) : updateLead u leads = leads := by
  induction leads with
  | nil => rfl
  | cons a t ih =>
    have ha : ¬ a.id = u.id := h a (List.mem_cons_self a t)
    simp only [updateLead, List.map_cons] at ih ⊢
    rw [if_neg ha, ih fun l hl => h l (List.mem_cons_of_mem a hl)]

/-- `deleteLead` with an id matching no record keeps every record. -/
theorem deleteLead_not_present (i : String) (leads : List Lead)
    (h : ∀ l ∈ leads, l.id ≠ i) : deleteLead i leads = leads :=
  List.filter_eq_self.mpr fun a ha => by simp [h a ha]

/-- `updateLead` never changes the sequence of ids. -/
theorem updateLead_ids (u : Lead) (leads : List Lead) :
    (updateLead u leads).map (fun l => l.id) = leads.map fun l => l.id := by
  induction leads with
  | nil => rfl
  | cons a t ih =>
    simp only [updateLead, List.map_cons] at ih ⊢
    by_cases h : a.id = u.id
    · rw [if_pos h, ih, ← h]
    · rw [if_neg h, ih]

end API

namespace Scheduler

/-- Firing a callback for an id the store holds (as record `m`): the saved
collection now finds that record moved to `Contacted` with `last_contacted`
set to the fire instant, and memory is re-read from the store. -/
theorem fireTimeout_found (t : Nat) (i : String) (s : SchedState)
    (m : MockBackend.Lead)
    (h : s.store.find? (fun x => decide (x.id = i)) = some m) :
    (fireTimeout t i s).store.find? (fun x => decide (x.id = i)) =
      some (MockBackend.applyStatus t LeadStatus.Contacted m) ∧
    (fireTimeout t i s).mem = (fireTimeout t i s).store := by
  obtain ⟨hret, hfind⟩ :=
    MockBackend.updateStatus_found t i LeadStatus.Contacted s.store m h
  simp only [fireTimeout]
  rw [hret]
  exact ⟨hfind, rfl⟩

end Scheduler

/-- Sample leads and states used to instantiate the theorems below (shapes
taken from the demo seed data in the sources). -/
def mLeadDone : MockBackend.Lead :=
  { id := "m0", username := "alex_design", full_name := "Alex Johnson",
    profile_url := "#", email := "", phone := "N/A",
    source_platform := Platform.Instagram, captured_from := "Comment",
    captured_content := "Interested in your product!", timestamp := 0,
    status := LeadStatus.Converted, last_contacted := none }

def mLeadNew : MockBackend.Lead :=
  { id := "m1", username := "tech_guru", full_name := "Mark Miller",
    profile_url := "#", email := "", phone := "N/A",
    source_platform := Platform.Instagram, captured_from := "Comment",
    captured_content := "Interested in your product!", timestamp := 1,
    status := LeadStatus.New, last_contacted := none }

def mLeadNew2 : MockBackend.Lead :=
  { id := "m2", username := "growth_expert", full_name := "Elena Rose",
    profile_url := "#", email := "", phone := "N/A",
    source_platform := Platform.Instagram, captured_from := "Ad",
    captured_content := "Interested in your product!", timestamp := 2,
    status := LeadStatus.New, last_contacted := none }

def sEx : Scheduler.SchedState :=
  { mem := [mLeadDone, mLeadNew, mLeadNew2],
    store := [mLeadDone, mLeadNew, mLeadNew2],
    pending := [], automating := true }

def sNoNew : Scheduler.SchedState :=
  { mem := [mLeadDone], store := [mLeadDone], pending := [], automating := true }

def sampleNew : API.Lead :=
  { id := "lead1", username := "sconnor", full_name := "Sarah Connor",
    email := "", phone := "", source_platform := Platform.Instagram,
    captured_from := "Direct Message",
    captured_content := "Interested in your product!", timestamp := 0,
    status := LeadStatus.New, last_contacted := none, notes := some "" }

/-- C10: when a collection is split at the first record carrying the target
id, `MockBackend.updateStatus` rewrites only that record — its `status`
field, plus `last_contacted` exactly when the new status is `Contacted` —
returns it, and leaves every other lead, every other field of the matched
lead, and the collection's length and order unchanged. -/
theorem c10_updateStatus_frame (now : Nat) (i : String) (st : LeadStatus)
    (l1 l2 : List MockBackend.Lead) (l : MockBackend.Lead)
    (h1 : ∀ x ∈ l1, x.id ≠ i) (hl : l.id = i) :
    MockBackend.updateStatus now i st (l1 ++ l :: l2) =
      (l1 ++ MockBackend.applyStatus now st l :: l2,
       some (MockBackend.applyStatus now st l)) ∧
    (MockBackend.applyStatus now st l).id = l.id ∧
    (MockBackend.applyStatus now st l).username = l.username ∧
    (MockBackend.applyStatus now st l).full_name = l.full_name ∧
    (MockBackend.applyStatus now st l).profile_url = l.profile_url ∧
    (MockBackend.applyStatus now st l).email = l.email ∧
    (MockBackend.applyStatus now st l).phone = l.phone ∧
    (MockBackend.applyStatus now st l).source_platform = l.source_platform ∧
    (MockBackend.applyStatus now st l).captured_from = l.captured_from ∧
    (MockBackend.applyStatus now st l).captured_content = l.captured_content ∧
    (MockBackend.applyStatus now st l).timestamp = l.timestamp ∧
    (MockBackend.applyStatus now st l).status = st ∧
    (MockBackend.applyStatus now st l).last_contacted =
      (if st = LeadStatus.Contacted then some now else l.last_contacted) :=
  ⟨MockBackend.updateStatus_split now i st l1 l2 l h1 hl,
   rfl, rfl, rfl, rfl, rfl, rfl, rfl, rfl, rfl, rfl, rfl, rfl⟩

theorem c10_witness :
    (∀ x ∈ [mLeadDone], x.id ≠ "m1") ∧ mLeadNew.id = "m1" ∧
    MockBackend.updateStatus 9 "m1" LeadStatus.Lost [mLeadDone, mLeadNew, mLeadNew2] =
      ([mLeadDone, MockBackend.applyStatus 9 LeadStatus.Lost mLeadNew, mLeadNew2],
       some (MockBackend.applyStatus 9 LeadStatus.Lost mLeadNew)) :=
  ⟨by decide, rfl,
   (c10_updateStatus_frame 9 "m1" LeadStatus.Lost [mLeadDone] [mLeadNew2] mLeadNew
     (by decide) rfl).1⟩

/-- C1 (amended): through `MockBackend.updateStatus`, moving the lead found
for an id into `Contacted` sets/refreshes its `last_contacted` to the
transition instant; since a transition instant is never earlier than the
lead's creation timestamp, afterwards `last_contacted` is set and is ≥ the
lead's `timestamp`, both in the returned lead and in the persisted
collection. The other repository update path, `API.updateLead`, replaces
the caller's record verbatim and has no such side effect (see the
counterexample). -/
theorem c1_contacted_sets_last_contacted (now : Nat) (i : String)
    (leads : List MockBackend.Lead) (m : MockBackend.Lead)
    (hfind : leads.find? (fun x => decide (x.id = i)) = some m)
    (hts : m.timestamp ≤ now) :
    (MockBackend.updateStatus now i LeadStatus.Contacted leads).2 =
      some (MockBackend.applyStatus now LeadStatus.Contacted m) ∧
    (MockBackend.applyStatus now LeadStatus.Contacted m).last_contacted = some now ∧
    (MockBackend.applyStatus now LeadStatus.Contacted m).timestamp ≤ now ∧
    (MockBackend.updateStatus now i LeadStatus.Contacted leads).1.find?
      (fun x => decide (x.id = i)) =
      some (MockBackend.applyStatus now LeadStatus.Contacted m) := by
  obtain ⟨h2, h1⟩ :=
    MockBackend.updateStatus_found now i LeadStatus.Contacted leads m hfind
  exact ⟨h2, by simp [MockBackend.applyStatus], hts, h1⟩

theorem c1_witness :
    ([mLeadDone, mLeadNew] : List MockBackend.Lead).find?
      (fun x => decide (x.id = "m1")) = some mLeadNew ∧
    mLeadNew.timestamp ≤ 5 ∧
    (MockBackend.updateStatus 5 "m1" LeadStatus.Contacted [mLeadDone, mLeadNew]).2 =
      some (MockBackend.applyStatus 5 LeadStatus.Contacted mLeadNew) ∧
    (MockBackend.applyStatus 5 LeadStatus.Contacted mLeadNew).last_contacted = some 5 :=
  ⟨by decide, by decide,
   (c1_contacted_sets_last_contacted 5 "m1" [mLeadDone, mLeadNew] mLeadNew
     (by decide) (by decide)).1,
   (c1_contacted_sets_last_contacted 5 "m1" [mLeadDone, mLeadNew] mLeadNew
     (by decide) (by decide)).2.1⟩

/-- C1 counterexample: transitioning a lead into `Contacted` through the
repository update path `API.updateLead` (exactly what the status dropdown
handler does) does not set `last_contacted`: the stored record is
`Contacted` yet `last_contacted` stays unset, refuting the claim for that
update path. -/
theorem c1_counterexample :
    (API.updateLead { sampleNew with status := LeadStatus.Contacted } [sampleNew]).map
      (fun l => (l.status, l.last_contacted)) = [(LeadStatus.Contacted, none)] := by
  decide

/-- C3: on a tick, when no in-memory lead has status `New` the tick changes
nothing at all; otherwise exactly the first `New` lead (in current order) is
marked `Processing`, every other lead, the store and the flag are untouched,
and the single scheduled callback is for that lead's id — only a lead whose
status was `New` is ever selected, so a lead already `Processing` is never
re-selected by a later tick. -/
theorem c3_tick_selects_at_most_one (t : Nat) (s : Scheduler.SchedState) :
    ((∀ x ∈ s.mem, x.status ≠ LeadStatus.New) → Scheduler.tick t s = s) ∧
    (∀ (l1 l2 : List MockBackend.Lead) (l : MockBackend.Lead),
      s.mem = l1 ++ l :: l2 → (∀ x ∈ l1, x.status ≠ LeadStatus.New) →
      l.status = LeadStatus.New →
      Scheduler.tick t s =
        { s with
          mem := l1 ++ ({ l with status := LeadStatus.Processing } : MockBackend.Lead) :: l2,
          pending := s.pending ++ [(t + 3, l.id)] }) :=
  ⟨fun h => Scheduler.tick_noop t s h,
   fun l1 l2 l hmem h1 hl => Scheduler.tick_split t s l1 l2 l hmem h1 hl⟩

theorem c3_witness :
    (∀ x ∈ [mLeadDone], x.status ≠ LeadStatus.New) ∧
    mLeadNew.status = LeadStatus.New ∧
    sEx.mem = [mLeadDone] ++ mLeadNew :: [mLeadNew2] ∧
    Scheduler.tick 8 sEx =
      { sEx with
        mem := [mLeadDone] ++
          ({ mLeadNew with status := LeadStatus.Processing } : MockBackend.Lead) :: [mLeadNew2],
        pending := sEx.pending ++ [(8 + 3, mLeadNew.id)] } ∧
    (∀ x ∈ sNoNew.mem, x.status ≠ LeadStatus.New) ∧
    Scheduler.tick 8 sNoNew = sNoNew :=
  ⟨by decide, rfl, rfl,
   (c3_tick_selects_at_most_one 8 sEx).2 [mLeadDone] [mLeadNew2] mLeadNew rfl
     (by decide) rfl,
   by decide,
   (c3_tick_selects_at_most_one 8 sNoNew).1 (by decide)⟩

/-- C2: on a tick at instant `t` with a `New` lead present (the first such
lead being `l`, whose id the store holds as record `m`), the tick first
marks `l` `Processing` in memory and schedules a callback for `l.id` 3
time-units later; when that callback fires, the stored collection finds the
record for `l.id` with status `Contacted` and `last_contacted` set to the
fire instant — written through `MockBackend.updateStatus` and persisted —
and the in-memory collection is re-read from the store. -/
theorem c2_tick_then_delay_contacts (t : Nat) (s : Scheduler.SchedState)
    (l1 l2 : List MockBackend.Lead) (l m : MockBackend.Lead)
    (hmem : s.mem = l1 ++ l :: l2)
    (h1 : ∀ x ∈ l1, x.status ≠ LeadStatus.New)
    (hl : l.status = LeadStatus.New)
    (hstore : s.store.find? (fun x => decide (x.id = l.id)) = some m) :
    (Scheduler.tick t s).mem =
      l1 ++ ({ l with status := LeadStatus.Processing } : MockBackend.Lead) :: l2 ∧
    (t + 3, l.id) ∈ (Scheduler.tick t s).pending ∧
    (Scheduler.fireTimeout (t + 3) l.id (Scheduler.tick t s)).store.find?
      (fun x => decide (x.id = l.id)) =
      some (MockBackend.applyStatus (t + 3) LeadStatus.Contacted m) ∧
    (MockBackend.applyStatus (t + 3) LeadStatus.Contacted m).status =
      LeadStatus.Contacted ∧
    (MockBackend.applyStatus (t + 3) LeadStatus.Contacted m).last_contacted =
      some (t + 3) ∧
    (Scheduler.fireTimeout (t + 3) l.id (Scheduler.tick t s)).mem =
      (Scheduler.fireTimeout (t + 3) l.id (Scheduler.tick t s)).store := by
  have htick := Scheduler.tick_split t s l1 l2 l hmem h1 hl
  have hsf : (Scheduler.tick t s).store.find? (fun x => decide (x.id = l.id)) =
      some m := by
    rw [htick]
    exact hstore
  obtain ⟨hA, hB⟩ := Scheduler.fireTimeout_found (t + 3) l.id (Scheduler.tick t s) m hsf
  refine ⟨by rw [htick], by rw [htick]; simp, hA, rfl, ?_, hB⟩
  simp [MockBackend.applyStatus]

theorem c2_witness :
    sEx.mem = [mLeadDone] ++ mLeadNew :: [mLeadNew2] ∧
    (∀ x ∈ [mLeadDone], x.status ≠ LeadStatus.New) ∧
    mLeadNew.status = LeadStatus.New ∧
    sEx.store.find? (fun x => decide (x.id = mLeadNew.id)) = some mLeadNew ∧
    (Scheduler.fireTimeout (8 + 3) mLeadNew.id (Scheduler.tick 8 sEx)).store.find?
      (fun x => decide (x.id = mLeadNew.id)) =
      some (MockBackend.applyStatus (8 + 3) LeadStatus.Contacted mLeadNew) :=
  ⟨rfl, by decide, rfl, by decide,
   (c2_tick_then_delay_contacts 8 sEx [mLeadDone] [mLeadNew2] mLeadNew mLeadNew rfl
     (by decide) rfl (by decide)).2.2.1⟩

/-- C4: from an automating state whose first `New` lead is `l` (stored as
record `m`), running a tick and then toggling automation off leaves the
scheduled callback pending (the effect cleanup clears only the interval,
not the timeout) and turns the flag off; every further tick event is a
complete no-op, yet firing the pending callback still drives the stored
record for `l.id` to `Contacted` with `last_contacted` set. -/
theorem c4_toggle_off_keeps_pending (t u : Nat) (s : Scheduler.SchedState)
    (l1 l2 : List MockBackend.Lead) (l m : MockBackend.Lead)
    (hauto : s.automating = true)
    (hmem : s.mem = l1 ++ l :: l2)
    (h1 : ∀ x ∈ l1, x.status ≠ LeadStatus.New)
    (hl : l.status = LeadStatus.New)
    (hstore : s.store.find? (fun x => decide (x.id = l.id)) = some m) :
    (Scheduler.stepEv (Scheduler.stepEv s (Scheduler.Event.tick t))
      (Scheduler.Event.toggle false)).automating = false ∧
    (t + 3, l.id) ∈ (Scheduler.stepEv (Scheduler.stepEv s (Scheduler.Event.tick t))
      (Scheduler.Event.toggle false)).pending ∧
    Scheduler.stepEv (Scheduler.stepEv (Scheduler.stepEv s (Scheduler.Event.tick t))
      (Scheduler.Event.toggle false)) (Scheduler.Event.tick u) =
      Scheduler.stepEv (Scheduler.stepEv s (Scheduler.Event.tick t))
        (Scheduler.Event.toggle false) ∧
    (Scheduler.stepEv (Scheduler.stepEv (Scheduler.stepEv s (Scheduler.Event.tick t))
      (Scheduler.Event.toggle false)) (Scheduler.Event.fire (t + 3) l.id)).store.find?
      (fun x => decide (x.id = l.id)) =
      some (MockBackend.applyStatus (t + 3) LeadStatus.Contacted m) := by
  have htick := Scheduler.tick_split t s l1 l2 l hmem h1 hl
  have hs2 : Scheduler.stepEv (Scheduler.stepEv s (Scheduler.Event.tick t))
      (Scheduler.Event.toggle false) =
      { mem := l1 ++ ({ l with status := LeadStatus.Processing } : MockBackend.Lead) :: l2,
        store := s.store,
        pending := s.pending ++ [(t + 3, l.id)],
        automating := false } := by
    simp [Scheduler.stepEv, hauto, htick]
  have hmem2 : (t + 3, l.id) ∈ s.pending ++ [(t + 3, l.id)] := by simp
  refine ⟨by rw [hs2], by rw [hs2]; simp, ?_, ?_⟩
  · rw [hs2]
    simp [Scheduler.stepEv]
  · rw [hs2]
    simp only [Scheduler.stepEv]
    rw [if_pos hmem2]
    exact (Scheduler.fireTimeout_found (t + 3) l.id
      { mem := l1 ++ ({ l with status := LeadStatus.Processing } : MockBackend.Lead) :: l2,
        store := s.store,
        pending := (s.pending ++ [(t + 3, l.id)]).erase (t + 3, l.id),
        automating := false } m hstore).1

theorem c4_witness :
    sEx.automating = true ∧
    sEx.mem = [mLeadDone] ++ mLeadNew :: [mLeadNew2] ∧
    (∀ x ∈ [mLeadDone], x.status ≠ LeadStatus.New) ∧
    mLeadNew.status = LeadStatus.New ∧
    sEx.store.find? (fun x => decide (x.id = mLeadNew.id)) = some mLeadNew ∧
    (Scheduler.stepEv (Scheduler.stepEv (Scheduler.stepEv sEx (Scheduler.Event.tick 8))
      (Scheduler.Event.toggle false)) (Scheduler.Event.fire (8 + 3) mLeadNew.id)).store.find?
      (fun x => decide (x.id = mLeadNew.id)) =
      some (MockBackend.applyStatus (8 + 3) LeadStatus.Contacted mLeadNew) :=
  ⟨rfl, rfl, by decide, rfl, by decide,
   (c4_toggle_off_keeps_pending 8 20 sEx [mLeadDone] [mLeadNew2] mLeadNew mLeadNew rfl
     rfl (by decide) rfl (by decide)).2.2.2⟩

/-- C5: running any sequence of repository create/update/delete operations
from the empty store, the resulting collection finds, for every id, exactly
the record the spec's last-written account prescribes — present iff the id
was created and not deleted after its last creation, carrying the fields
last written for it; moreover, whenever the resulting ids are pairwise
distinct (the intended fresh-id regime), every listed record is exactly its
id's last-written record. -/
theorem c5_list_exactly_last_writes (ops : List API.RepoOp) :
    (∀ x : String, (API.runOps ops).find? (fun l => decide (l.id = x)) =
      API.lastWritten ops x) ∧
    (((API.runOps ops).map fun l => l.id).Nodup →
      ∀ l ∈ API.runOps ops, API.lastWritten ops l.id = some l) := by
  constructor
  · intro x
    exact API.runOps_find_aux x ops []
  · intro hnd l hl
    have haux : API.lastWrittenFrom l.id none ops =
        (API.runOps ops).find? (fun x => decide (x.id = l.id)) :=
      (API.runOps_find_aux l.id ops []).symm
    exact haux.trans (find?_mem_of_nodup_keys (fun l => l.id) (API.runOps ops) l hnd hl)

def leadB : API.Lead :=
  API.mkLead 1 "idB" "user_8" { full_name := some "Victor Sullivan" }

def opsDemo : List API.RepoOp :=
  [API.RepoOp.add 0 "idA" "user_7" {},
   API.RepoOp.add 1 "idB" "user_8" { full_name := some "Victor Sullivan" },
   API.RepoOp.update { leadB with notes := some "called back" },
   API.RepoOp.delete "idA"]

theorem c5_witness :
    (((API.runOps opsDemo).map fun l => l.id).Nodup) ∧
    ({ leadB with notes := some "called back" } : API.Lead) ∈ API.runOps opsDemo ∧
    API.lastWritten opsDemo ({ leadB with notes := some "called back" } : API.Lead).id =
      some { leadB with notes := some "called back" } :=
  ⟨by decide, by decide,
   (c5_list_exactly_last_writes opsDemo).2 (by decide)
     { leadB with notes := some "called back" } (by decide)⟩

/-- C6: updating or deleting an id absent from the collection is a no-op:
`API.updateLead` and `API.deleteLead` both return the collection unchanged
(both are total functions of the collection — no error path exists). -/
theorem c6_missing_id_noop (u : API.Lead) (i : String) (leads : List API.Lead)
    (hu : ∀ l ∈ leads, l.id ≠ u.id) (hi : ∀ l ∈ leads, l.id ≠ i) :
    API.updateLead u leads = leads ∧ API.deleteLead i leads = leads :=
  ⟨API.updateLead_not_present u leads hu, API.deleteLead_not_present i leads hi⟩

def ghostLead : API.Lead :=
  { sampleNew with id := "ghost" }

theorem c6_witness :
    (∀ l ∈ [sampleNew], l.id ≠ ghostLead.id) ∧
    (∀ l ∈ [sampleNew], l.id ≠ "ghost") ∧
    API.updateLead ghostLead [sampleNew] = [sampleNew] ∧
    API.deleteLead "ghost" [sampleNew] = [sampleNew] :=
  ⟨by decide, by decide,
   (c6_missing_id_noop ghostLead "ghost" [sampleNew] (by decide) (by decide)).1,
   (c6_missing_id_noop ghostLead "ghost" [sampleNew] (by decide) (by decide)).2⟩

/-- C7 (amended): for every partial input that does not supply `id` or
`timestamp` — the claim as stated fails for inputs that do, because the
trailing spread lets them override the generated values, see the
counterexample — `API.addLead` prepends a fully-populated record: the
freshly generated id, `timestamp` = now, status `New` unless explicitly
overridden, and every omitted field filled from the documented defaults
(`full_name` "New Prospect", `email` and `phone` empty, `source_platform`
Instagram, `captured_from` "Direct Message", `notes` empty). Every required
field of the record is set, and the optional `notes` is set as well. -/
theorem c7_create_fills_defaults (now : Nat) (genId genUser : String)
    (p : API.PartialLead) (leads : List API.Lead)
    (hid : p.id = none) (hts : p.timestamp = none) :
    API.addLead now genId genUser p leads =
      ({ id := genId,
         username := p.username.getD genUser,
         full_name := p.full_name.getD "New Prospect",
         email := p.email.getD "",
         phone := p.phone.getD "",
         source_platform := p.source_platform.getD Platform.Instagram,
         captured_from := p.captured_from.getD "Direct Message",
         captured_content := p.captured_content.getD "Interested in your product!",
         timestamp := now,
         status := p.status.getD LeadStatus.New,
         last_contacted := p.last_contacted,
         notes := some (p.notes.getD "") } : API.Lead) :: leads := by
  simp [API.addLead, API.mkLead, hid, hts]

theorem c7_witness :
    ({} : API.PartialLead).id = none ∧
    ({} : API.PartialLead).timestamp = none ∧
    API.addLead 5 "fresh9" "user_0" {} [] =
      [{ id := "fresh9", username := "user_0", full_name := "New Prospect",
         email := "", phone := "", source_platform := Platform.Instagram,
         captured_from := "Direct Message",
         captured_content := "Interested in your product!", timestamp := 5,
         status := LeadStatus.New, last_contacted := none, notes := some "" }] :=
  ⟨rfl, rfl, c7_create_fills_defaults 5 "fresh9" "user_0" {} [] rfl rfl⟩

/-- C7 counterexample: the claim quantifies over every input partial lead,
but a partial that supplies `timestamp` overrides the `timestamp = now`
default through the trailing spread: created at instant 5, the record
carries timestamp 999, not 5. -/
theorem c7_counterexample :
    ((API.addLead 5 "fresh9" "user_0" { timestamp := some 999 } []).map
      fun l => l.timestamp) = [999] ∧ (999 : Nat) ≠ 5 := by
  decide

/-- C8 (amended): `load` returns the empty collection when nothing has been
persisted yet, and the parsed collection when the persisted text is
well-formed; but on malformed persisted data it does not fail closed —
`JSON.parse` is called with no try/catch, so the parse error propagates as
a thrown exception (and no warning is logged). -/
theorem c8_load_behavior :
    API.getLeads API.StoredValue.absent = Except.ok [] ∧
    (∀ ls : List API.Lead,
      API.getLeads (API.StoredValue.wellFormed ls) = Except.ok ls) ∧
    API.getLeads API.StoredValue.malformed =
      Except.error "SyntaxError: JSON.parse rejects the stored text" :=
  ⟨rfl, fun _ => rfl, rfl⟩

/-- C8 counterexample: malformed persisted data is not treated as the empty
collection — the unhandled `JSON.parse` exception propagates instead of the
store failing closed. -/
theorem c8_counterexample :
    API.getLeads API.StoredValue.malformed ≠ Except.ok [] := by
  simp [API.getLeads]

/-- C9 (amended): when the caller does not supply them, `id` and `timestamp`
are generated at creation (the fresh token and the current instant);
`MockBackend.updateStatus` never changes any lead's id or timestamp;
`API.updateLead` preserves the sequence of ids (the replacement record
carries the matched id); and `API.deleteLead` leaves every surviving record
untouched. The claim as stated fails because `API.addLead` does accept
caller-supplied `id`/`timestamp` through its trailing spread (see the
counterexample), and `API.updateLead` replaces whole records, so a caller
can rewrite a lead's timestamp through it. -/
theorem c9_id_timestamp_management (now : Nat) (genId genUser : String)
    (p : API.PartialLead) (leads : List API.Lead)
    (mleads : List MockBackend.Lead) (i iDel : String) (st : LeadStatus)
    (u : API.Lead) :
    (p.id = none → p.timestamp = none →
      ((API.addLead now genId genUser p leads).map fun l => (l.id, l.timestamp)) =
        (genId, now) :: (leads.map fun l => (l.id, l.timestamp))) ∧
    ((MockBackend.updateStatus now i st mleads).1.map fun l => (l.id, l.timestamp)) =
      (mleads.map fun l => (l.id, l.timestamp)) ∧
    ((API.updateLead u leads).map fun l => l.id) = (leads.map fun l => l.id) ∧
    (∀ l ∈ API.deleteLead iDel leads, l ∈ leads) := by
  refine ⟨?_, MockBackend.updateStatus_keys now i st mleads,
    API.updateLead_ids u leads, ?_⟩
  · intro hid hts
    simp [API.addLead, API.mkLead, hid, hts]
  · intro l hl
    exact List.mem_of_mem_filter hl

theorem c9_witness :
    ({} : API.PartialLead).id = none ∧
    ({} : API.PartialLead).timestamp = none ∧
    ((API.addLead 5 "fresh9" "user_0" {} [sampleNew]).map fun l => (l.id, l.timestamp)) =
      ("fresh9", 5) :: ([sampleNew].map fun l => (l.id, l.timestamp)) :=
  ⟨rfl, rfl,
   (c9_id_timestamp_management 5 "fresh9" "user_0" {} [sampleNew] [] "x" "y"
     LeadStatus.New sampleNew).1 rfl rfl⟩

/-- C9 counterexample: `API.addLead` accepts a caller-supplied id rather
than always generating one — the trailing spread overrides the freshly
generated token: with fresh token "fresh9" the created record carries id
"custom". -/
theorem c9_counterexample :
    ((API.addLead 5 "fresh9" "user_0" { id := some "custom" } []).map fun l => l.id) =
      ["custom"] ∧ "custom" ≠ "fresh9" := by
  decide
